import Mathlib

set_option maxRecDepth 10000

/-!
Shallow embedding of the used-car price pipeline in `gradientboosting.py`.

The script is a straight-line pandas/sklearn pipeline.  Numeric columns are
embedded as `ℚ` (the script's float arithmetic, taken exactly); tables are
lists of row structures, ordered as the DataFrame rows are.  Library calls
(`scipy.stats.zscore`, `sklearn` metrics, `LabelEncoder`, `pandas.sample`,
numpy's Mersenne Twister) are embedded from their documented, deterministic
semantics, since their code is not part of this repository.
-/

namespace GradBoost

/-! ### Basic column statistics

`scipy.stats.zscore` standardises with the population standard deviation
(`ddof = 0`): `z = (x - mean) / std`.  `std` is an irrational square root in
general, so over `ℚ` we carry the square of the z-score instead:
`|z| < 3 ↔ z^2 < 9`, and `z^2 = (x - mean)^2 / variance` whenever the
variance is nonzero.  A zero variance makes the float division `0/0 = NaN`;
we embed NaN as `none`, and every ordered comparison against NaN is false,
exactly as in IEEE float semantics used by pandas. -/

/-- Arithmetic mean of a column (`sum / length`; `0` on the empty column,
matching the convention that we never evaluate it there). -/
def mean (t : List ℚ) : ℚ := t.sum / t.length

/-- Population variance (`ddof = 0`), as used by `scipy.stats.zscore`. -/
def pvariance (t : List ℚ) : ℚ :=
  (t.map (fun x => (x - mean t) ^ 2)).sum / t.length

/-- Square of the standardized score of `x` against column `t`
(line 25, `zscore(data['odometer'])`).  `none` embeds the NaN produced by
the float division when the column's standard deviation is zero. -/
def zscoreSq (t : List ℚ) (x : ℚ) : Option ℚ :=
  if pvariance t = 0 then none else some ((x - mean t) ^ 2 / pvariance t)

/-- Line 26 retention test `data['odometer_zscore'].abs() < 3`, on the
squared score: `|z| < 3 ↔ z^2 < 9`.  A NaN score (`none`) compares false,
as NaN does in pandas, so such a row is dropped. -/
def zKeep : Option ℚ → Bool
  | none => false
  | some zsq => decide (zsq < 9)

/-! ### Row types -/

/-- One row of the table after imputation: the nine projected columns of
line 16, with `year` and `odometer` filled in.  The source column `type` is
a Lean keyword, so the field is spelled `vtype`. -/
structure ImpRow where
  price : ℚ
  year : ℚ
  manufacturer : String
  fuel : String
  odometer : ℚ
  transmission : String
  drive : String
  paint_color : String
  vtype : String
deriving DecidableEq, Repr

/-- A row carrying the temporary `odometer_zscore` column added on line 25
(stored squared, `none` for NaN). -/
structure ZRow where
  base : ImpRow
  odometer_zscore_sq : Option ℚ
deriving DecidableEq, Repr

/-- Line 25: append the `odometer_zscore` column, computed from the
`odometer` column of the table as it stands at this stage. -/
def addZscoreCol (t : List ImpRow) : List ZRow :=
  t.map fun r => ⟨r, zscoreSq (t.map ImpRow.odometer) r.odometer⟩

/-- Lines 25-27: add the z-score column, keep the rows passing
`abs(z) < 3`, then drop the temporary column again. -/
def outlierStage (t : List ImpRow) : List ImpRow :=
  ((addZscoreCol t).filter fun r => zKeep r.odometer_zscore_sq).map ZRow.base

/-! ### Column-name bookkeeping for the outlier stage

Lines 25 and 27 also change the column set of the frame: assignment to a
fresh name appends a column, `drop(columns=[c])` removes it. -/

/-- Pandas column assignment `data[c] = ...`: appends `c` when new. -/
def addColName (cols : List String) (c : String) : List String :=
  if c ∈ cols then cols else cols ++ [c]

/-- Pandas `data.drop(columns=[c])`. -/
def dropColName (cols : List String) (c : String) : List String :=
  cols.filter fun x => x ≠ c

/-- Effect of lines 25-27 on the frame's column list. -/
def outlierStageCols (cols : List String) : List String :=
  dropColName (addColName cols "odometer_zscore") "odometer_zscore"

/-- The nine columns the frame is projected to on line 16. -/
def nineCols : List String :=
  ["price", "year", "manufacturer", "fuel", "odometer",
   "transmission", "drive", "paint_color", "type"]

/-! ### Evaluator (lines 64-73)

`mean_absolute_error`, `mean_squared_error` and `r2_score` with their
sklearn definitions; `r2_score = 1 - SS_res / SS_tot` where `SS_tot` is
taken about the mean of the *true* values. -/

/-- Mean absolute error of predictions against truth. -/
def mae (yt yp : List ℚ) : ℚ :=
  (List.zipWith (fun a b => |a - b|) yt yp).sum / yt.length

/-- Mean squared error of predictions against truth. -/
def mse (yt yp : List ℚ) : ℚ :=
  (List.zipWith (fun a b => (a - b) ^ 2) yt yp).sum / yt.length

/-- Coefficient of determination: `1 - SS_res / SS_tot`, with `SS_tot`
the squared deviation of the true values about their own mean. -/
def r2 (yt yp : List ℚ) : ℚ :=
  1 - (List.zipWith (fun a b => (a - b) ^ 2) yt yp).sum /
      (yt.map (fun a => (a - mean yt) ^ 2)).sum

/-- Rounding to two decimals, as the `:.2f` report format does. -/
def roundTo2 (q : ℚ) : ℚ := (round (q * 100) : ℤ) / 100

/-! ### Concrete test tables -/

/-- The distinguished row whose z-score is exactly 3 in `t10`. -/
def r10 : ImpRow := ⟨2000, 2000, "m", "gas", 10, "a", "d", "c", "s"⟩

/-- A concrete ten-row table: nine rows with odometer 0 and one with
odometer 10.  Mean odometer is 1 and the population variance is 9, so the
last row's standardized odometer score is exactly `(10 - 1)/3 = 3`. -/
def t10 : List ImpRow :=
  [⟨1000, 2000, "m", "gas", 0, "a", "d", "c", "s"⟩,
   ⟨1001, 2000, "m", "gas", 0, "a", "d", "c", "s"⟩,
   ⟨1002, 2000, "m", "gas", 0, "a", "d", "c", "s"⟩,
   ⟨1003, 2000, "m", "gas", 0, "a", "d", "c", "s"⟩,
   ⟨1004, 2000, "m", "gas", 0, "a", "d", "c", "s"⟩,
   ⟨1005, 2000, "m", "gas", 0, "a", "d", "c", "s"⟩,
   ⟨1006, 2000, "m", "gas", 0, "a", "d", "c", "s"⟩,
   ⟨1007, 2000, "m", "gas", 0, "a", "d", "c", "s"⟩,
   ⟨1008, 2000, "m", "gas", 0, "a", "d", "c", "s"⟩,
   r10]

/-- A three-row table whose odometer column is constant (zero variance). -/
def tconst : List ImpRow :=
  [⟨600, 1999, "m", "gas", 5, "a", "d", "c", "s"⟩,
   ⟨700, 2001, "m", "gas", 5, "a", "d", "c", "s"⟩,
   ⟨800, 2003, "m", "diesel", 5, "a", "d", "c", "s"⟩]


/-! ### Raw rows and the cleaning stage (lines 14-17)

The raw table is read from `used_cars.csv`; a raw row carries the nine
columns the script keeps plus whatever other columns the file has
(`extras`, dropped by the projection of line 16).  `year` and `odometer`
may be missing (`None`). -/

/-- One row of the raw table restricted to the nine columns of line 16. -/
structure RawRow where
  price : ℚ
  year : Option ℚ
  manufacturer : String
  fuel : String
  odometer : Option ℚ
  transmission : String
  drive : String
  paint_color : String
  vtype : String
deriving DecidableEq, Repr

/-- One row of the raw csv table: the nine kept columns plus the values of
the columns that line 16 removes. -/
structure CsvRow extends RawRow where
  extras : List String
deriving DecidableEq, Repr

/-- Line 15 price filter: retain `500 < price < 80000`. -/
def priceOk (r : CsvRow) : Bool :=
  decide (500 < r.price) && decide (r.price < 80000)

/-! ### numpy's Mersenne Twister (used by `data.sample(frac=0.3, random_state=42)`)

`pandas.DataFrame.sample` with an integer `random_state` builds
`numpy.random.RandomState(seed)` and draws row positions with
`choice(n, size, replace=False)`, which takes the first `size` entries of
`permutation(n)`; the sampled rows are emitted in draw order.  The
generator is MT19937 exactly as in numpy's `randomkit.c`: 32-bit state
words are embedded as `ℕ` reduced mod `2^32`. -/

/-- Seeding recurrence of `rk_seed`: `key[pos] = s`, then
`s := (1812433253 * (s xor (s >> 30)) + pos + 1) mod 2^32`. -/
def mtSeedAux : ℕ → ℕ → ℕ → List ℕ
  | _, _, 0 => []
  | s, pos, n + 1 =>
      s :: mtSeedAux ((1812433253 * (s ^^^ (s >>> 30)) + pos + 1) % 2 ^ 32) (pos + 1) n

/-- The 624-word key array of `RandomState(seed)` after `rk_seed`. -/
def mtInitKey (seed : ℕ) : List ℕ := mtSeedAux (seed % 2 ^ 32) 0 624

/-- One in-place update of the MT19937 regeneration pass at position `i`:
`y = (mt[i] & 0x80000000) | (mt[i+1 mod 624] & 0x7fffffff)`,
`mt[i] = mt[i+397 mod 624] ^ (y >> 1) ^ (y odd ? 0x9908b0df : 0)`,
reading already-regenerated words exactly as the C loop does. -/
def mtTwistStep (mt : List ℕ) (i : ℕ) : List ℕ :=
  let y := ((mt.getD i 0) &&& 0x80000000) ||| ((mt.getD ((i + 1) % 624) 0) &&& 0x7fffffff)
  let v := (mt.getD ((i + 397) % 624) 0) ^^^ (y >>> 1) ^^^
      (if y &&& 1 = 1 then 0x9908b0df else 0)
  mt.set i v

/-- Full regeneration pass over the 624 state words. -/
def mtTwist (mt : List ℕ) : List ℕ := (List.range 624).foldl mtTwistStep mt

/-- MT19937 tempering of one output word. -/
def mtTemper (y0 : ℕ) : ℕ :=
  let y1 := y0 ^^^ (y0 >>> 11)
  let y2 := y1 ^^^ ((y1 <<< 7) &&& 0x9d2c5680)
  let y3 := y2 ^^^ ((y2 <<< 15) &&& 0xefc60000)
  (y3 ^^^ (y3 >>> 18)) &&& 0xffffffff

/-- Generator state: the 624 words and the output position (624 forces a
regeneration pass on the next draw, as after seeding). -/
structure MTState where
  key : List ℕ
  pos : ℕ
deriving DecidableEq, Repr

/-- State of `RandomState(seed)` right after seeding. -/
def mtInit (seed : ℕ) : MTState := ⟨mtInitKey seed, 624⟩

/-- `rk_random`: next tempered 32-bit word. -/
def mtNext (s : MTState) : ℕ × MTState :=
  if s.pos ≥ 624 then
    let k := mtTwist s.key
    (mtTemper (k.getD 0 0), ⟨k, 1⟩)
  else
    (mtTemper (s.key.getD s.pos 0), ⟨s.key, s.pos + 1⟩)

/-- Smallest mask of the form `2^k - 1` that covers `mx`. -/
def rkMask (mx : ℕ) : ℕ :=
  let m1 := mx ||| (mx >>> 1)
  let m2 := m1 ||| (m1 >>> 2)
  let m3 := m2 ||| (m2 >>> 4)
  let m4 := m3 ||| (m3 >>> 8)
  m4 ||| (m4 >>> 16)

/-- Rejection loop of `rk_interval`: draw a masked word until it is at
most `mx`.  The loop terminates with probability 1; the fuel bound (never
reached on the traces evaluated here, each attempt succeeds with
probability above 1/2) returns 0, which is in range. -/
def rkIntervalAux : ℕ → ℕ → MTState → ℕ × MTState
  | 0, _, s => (0, s)
  | fuel + 1, mx, s =>
      let vs := mtNext s
      let w := vs.1 &&& rkMask mx
      if w ≤ mx then (w, vs.2) else rkIntervalAux fuel mx vs.2

/-- `rk_interval(max, state)`: uniform draw in `[0, max]`; `max = 0` short
circuits without consuming randomness, as in the C source. -/
def rkInterval (mx : ℕ) (s : MTState) : ℕ × MTState :=
  if mx = 0 then (0, s) else rkIntervalAux 64 mx s

/-- Fisher-Yates descent of `RandomState.shuffle`: at position `i` (from
`n-1` down to `1`) swap `arr[i]` with `arr[j]` for `j = rk_interval(i)`. -/
def npShuffleAux : ℕ → List ℕ → MTState → List ℕ × MTState
  | 0, arr, s => (arr, s)
  | i + 1, arr, s =>
      let js := rkInterval (i + 1) s
      let a := arr.getD (i + 1) 0
      let b := arr.getD js.1 0
      npShuffleAux i ((arr.set (i + 1) b).set js.1 a) js.2

/-- `RandomState(seed).permutation(n)`: shuffle of `range n`. -/
def npPermutation (seed n : ℕ) : List ℕ :=
  (npShuffleAux (n - 1) (List.range n) (mtInit seed)).1

/-- Row positions drawn by `sample(frac=frac, random_state=seed)` on a
table of `n` rows: `choice(n, round(frac*n), replace=False)`, i.e. the
first `round(frac*n)` entries of a full permutation, in draw order. -/
def pdSampleIdx (seed : ℕ) (frac : ℚ) (n : ℕ) : List ℕ :=
  (npPermutation seed n).take (Int.toNat (round (frac * n)))

/-- `DataFrame.sample(frac, random_state)`: the rows at the drawn
positions, in draw order. -/
def pdSample {β : Type} (seed : ℕ) (frac : ℚ) (t : List β) : List β :=
  (pdSampleIdx seed frac t.length).filterMap fun i => t[i]?

/-- Lines 15-17: price filter, projection to the nine columns, then the
seeded 30% subsample. -/
def cleaningStage (seed : ℕ) (frac : ℚ) (t : List CsvRow) : List RawRow :=
  pdSample seed frac ((t.filter priceOk).map CsvRow.toRawRow)

/-! ### Imputation stage (lines 20-22) -/

/-- One row after `KNNImputer.fit_transform`: observed `year`/`odometer`
entries are kept; a missing entry of row `i` is replaced by the value the
imputer computes from the whole table (the mean of the k nearest
neighbours).  That neighbour computation is the library's; it enters here
as the parameters `fy`/`fo` (a function of the whole table and the row
position), which is all the row-alignment claims depend on. -/
def imputeRow (fy fo : List RawRow → ℕ → ℚ) (t : List RawRow) (i : ℕ)
    (r : RawRow) : ImpRow :=
  { price := r.price
    year := r.year.getD (fy t i)
    manufacturer := r.manufacturer
    fuel := r.fuel
    odometer := r.odometer.getD (fo t i)
    transmission := r.transmission
    drive := r.drive
    paint_color := r.paint_color
    vtype := r.vtype }

/-- Line 22: impute the two numeric columns, row for row. -/
def imputeStage (fy fo : List RawRow → ℕ → ℚ) (t : List RawRow) : List ImpRow :=
  t.mapIdx (imputeRow fy fo t)

/-! ### Categorical encoder (lines 30-33)

`LabelEncoder.fit` stores the sorted distinct values of the column
(`numpy.unique`); `transform` maps each value to its index in that sorted
class list. -/

/-- Sorted distinct values of a column (`numpy.unique`). -/
def npUnique {α : Type} [LinearOrder α] [DecidableEq α] (col : List α) : List α :=
  col.toFinset.sort (· ≤ ·)

/-- The integer code of a value: its index in the sorted class list. -/
def labelCode {α : Type} [LinearOrder α] [DecidableEq α] (col : List α) (v : α) : ℕ :=
  (npUnique col).indexOf v

/-- `label_encoder.fit_transform(data[col])`: the column of codes. -/
def labelEncodeCol {α : Type} [LinearOrder α] [DecidableEq α] (col : List α) : List ℕ :=
  col.map (labelCode col)

/-- Row after categorical encoding: the six category columns replaced by
their integer codes. -/
structure EncRow where
  price : ℚ
  year : ℚ
  manufacturer : ℕ
  fuel : ℕ
  odometer : ℚ
  transmission : ℕ
  drive : ℕ
  paint_color : ℕ
  vtype : ℕ
deriving DecidableEq, Repr

/-- Encoding of one row against the whole table's columns (the loop of
lines 32-33 fits each encoder on the column as it stands). -/
def encodeRowIn (t : List ImpRow) (r : ImpRow) : EncRow :=
  { price := r.price
    year := r.year
    manufacturer := labelCode (t.map ImpRow.manufacturer) r.manufacturer
    fuel := labelCode (t.map ImpRow.fuel) r.fuel
    odometer := r.odometer
    transmission := labelCode (t.map ImpRow.transmission) r.transmission
    drive := labelCode (t.map ImpRow.drive) r.drive
    paint_color := labelCode (t.map ImpRow.paint_color) r.paint_color
    vtype := labelCode (t.map ImpRow.vtype) r.vtype }

/-- Lines 30-33: encode every categorical column of the table. -/
def encodeStage (t : List ImpRow) : List EncRow :=
  t.map (encodeRowIn t)

/-! ### Feature engineer (lines 36-41) -/

/-- Row after feature engineering: the encoded columns plus the three
derived columns of lines 37, 38 and 41. -/
structure FeatRow extends EncRow where
  car_age : ℚ
  price_per_km : ℚ
  odometer_fuel : ℚ
deriving DecidableEq, Repr

/-- Lines 37-41 on one row: `car_age = current_year - year`,
`price_per_km = price / (odometer + 1)`, `odometer_fuel = odometer * fuel`
(the encoded fuel).  `current_year` is the wall-clock year of line 36,
passed as a parameter. -/
def engineerRow (currentYear : ℚ) (r : EncRow) : FeatRow :=
  { r with
    car_age := currentYear - r.year
    price_per_km := r.price / (r.odometer + 1)
    odometer_fuel := r.odometer * (r.fuel : ℚ) }

/-- Lines 36-41: append the three derived columns, row for row. -/
def engineerStage (currentYear : ℚ) (t : List EncRow) : List FeatRow :=
  t.map (engineerRow currentYear)

/-! ### Feature selection and the hand-off to training (lines 44-59) -/

/-- Line 51: the features whose mutual-information score strictly exceeds
the 0.01 threshold. -/
def selectedFeatures (imp : List (String × ℚ)) : List String :=
  (imp.filter fun p => (1 / 100 : ℚ) < p.2).map Prod.fst

/-- Line 52 column selection `X[selected_features]`: the feature matrix
is a list of named columns; keep the selected ones, in selection order. -/
def projectColumns (sel : List String) (X : List (String × List ℚ)) :
    List (String × List ℚ) :=
  sel.filterMap fun c => (X.find? fun p => p.1 = c).map fun p => (c, p.2)

/-- Errors the training hand-off can surface.  `dataError` is modelled
from the spec (section 7), which prescribes an explicit DataError when
selection leaves zero features; the script itself never raises it.
`valueError` is sklearn's input validation at `fit`, which rejects a
matrix with zero feature columns. -/
inductive PipelineError
  | dataError (stage : String)
  | valueError (msg : String)
deriving DecidableEq, Repr

/-- Discriminator: did the pipeline fail with the spec's DataError? -/
def isDataError : Except PipelineError (List (String × List ℚ)) → Bool
  | .error (.dataError _) => true
  | _ => false

/-- Lines 51-59 up to the `fit` call: select features, project the
matrix, and hand it to `GradientBoostingRegressor.fit`, whose validation
rejects a zero-column matrix with a ValueError.  The script has no check
of its own between selection and `fit`. -/
def selectAndFit (imp : List (String × ℚ)) (X : List (String × List ℚ)) :
    Except PipelineError (List (String × List ℚ)) :=
  let Xsel := projectColumns (selectedFeatures imp) X
  if Xsel.length = 0 then
    .error (.valueError
      "Found array with 0 feature(s) while a minimum of 1 is required.")
  else
    .ok Xsel

/-! ### Boosting engine (lines 58, 114)

`GradientBoostingRegressor` with its defaults: T = 100 trees, learning
rate 0.1, squared-error loss.  Modelled from the spec (section 4.8), the
library's code being outside this repository: the ensemble is a constant
initial prediction (the training-target mean) plus T shallow regression
trees, each fit to the current residuals by a CART procedure that enters
as the parameter `fitTree`; every claim settled here is independent of
which trees that procedure returns. -/

/-- A shallow regression tree: internal nodes route on one feature column
against a threshold. -/
inductive RTree
  | leaf (value : ℚ)
  | node (feat : ℕ) (thr : ℚ) (lo hi : RTree)
deriving DecidableEq, Repr

/-- Evaluation of a tree on one feature row. -/
def RTree.eval : RTree → List ℚ → ℚ
  | .leaf v, _ => v
  | .node f thr lo hi, x => if x.getD f 0 ≤ thr then lo.eval x else hi.eval x

/-- A fitted ensemble: initial constant, learning rate, trees in order. -/
structure GBRModel where
  init : ℚ
  lr : ℚ
  trees : List RTree
deriving Repr

/-- Prediction using only the first `k` trees of the ensemble. -/
def GBRModel.predictWith (m : GBRModel) (k : ℕ) (x : List ℚ) : ℚ :=
  m.init + m.lr * ((m.trees.take k).map fun tr => tr.eval x).sum

/-- Full-ensemble prediction. -/
def GBRModel.predict (m : GBRModel) (x : List ℚ) : ℚ :=
  m.predictWith m.trees.length x

/-- Modelled from the spec: one boosting transition (section 4.8): the
squared-error negative gradient is the residual `y - current_prediction`;
fit a tree to the residuals and append it. -/
def gbrStep (fitTree : List (List ℚ) → List ℚ → RTree) (X : List (List ℚ))
    (y : List ℚ) (m : GBRModel) : GBRModel :=
  let residuals := (X.zip y).map fun p => p.2 - m.predict p.1
  { m with trees := m.trees ++ [fitTree X residuals] }

/-- Modelled from the spec: the full fit, `nEstimators` transitions from
the constant initial state (the mean of the training target). -/
def gbrFit (fitTree : List (List ℚ) → List ℚ → RTree) (X : List (List ℚ))
    (y : List ℚ) (nEstimators : ℕ) (lr : ℚ) : GBRModel :=
  (List.range nEstimators).foldl (fun m _ => gbrStep fitTree X y m) ⟨mean y, lr, []⟩

/-- Line 114 `staged_predict(X_test)`: the list of full prediction
vectors after each prefix of 1..T trees. -/
def stagedPredictSeq (m : GBRModel) (X : List (List ℚ)) : List (List ℚ) :=
  (List.range m.trees.length).map fun t => X.map (m.predictWith (t + 1))

/-! ### Further concrete test tables -/

/-- A ten-row raw csv table with pairwise distinct rows, all passing the
price filter of line 15.  With seed 42 the subsample of line 17 draws the
row positions `[8, 1, 5]`, in that order. -/
def tcsv10 : List CsvRow :=
  [⟨⟨1000, none, "m0", "gas", some 0, "a", "d", "c", "s"⟩, []⟩,
   ⟨⟨1000, none, "m1", "gas", some 1, "a", "d", "c", "s"⟩, []⟩,
   ⟨⟨1000, none, "m2", "gas", some 2, "a", "d", "c", "s"⟩, []⟩,
   ⟨⟨1000, none, "m3", "gas", some 3, "a", "d", "c", "s"⟩, []⟩,
   ⟨⟨1000, none, "m4", "gas", some 4, "a", "d", "c", "s"⟩, []⟩,
   ⟨⟨1000, none, "m5", "gas", some 5, "a", "d", "c", "s"⟩, []⟩,
   ⟨⟨1000, none, "m6", "gas", some 6, "a", "d", "c", "s"⟩, []⟩,
   ⟨⟨1000, none, "m7", "gas", some 7, "a", "d", "c", "s"⟩, []⟩,
   ⟨⟨1000, none, "m8", "gas", some 8, "a", "d", "c", "s"⟩, []⟩,
   ⟨⟨1000, none, "m9", "gas", some 9, "a", "d", "c", "s"⟩, []⟩]

/-- A concrete importance table whose scores all lie at or below the
selection threshold 0.01 of line 51. -/
def impLow : List (String × ℚ) :=
  [("year", 1 / 200), ("odometer", 0), ("car_age", 1 / 100)]

/-- A concrete two-row feature matrix, stored as named columns. -/
def Xcols : List (String × List ℚ) :=
  [("year", [2000, 2001]), ("odometer", [1, 2]), ("car_age", [25, 24])]

/-! ### Helper lemmas -/

/-- The outlier stage is the direct filter of the input rows by the squared
z-score test: adding the temporary column, filtering, and projecting it
away again composes to a plain `List.filter`. -/
theorem outlierStage_eq_filter (t : List ImpRow) :
    outlierStage t =
      t.filter fun r => zKeep (zscoreSq (t.map ImpRow.odometer) r.odometer) := by
  unfold outlierStage addZscoreCol
  rw [List.filter_map, List.map_map]
  simp [Function.comp_def]

/-- Surviving rows of the outlier stage form a sublist of the input. -/
theorem outlierStage_sublist (t : List ImpRow) : (outlierStage t).Sublist t := by
  rw [outlierStage_eq_filter]
  exact List.filter_sublist t

/-- The rejection loop of `rk_interval` never returns more than `mx`. -/
theorem rkIntervalAux_le : ∀ (fuel mx : ℕ) (s : MTState),
    (rkIntervalAux fuel mx s).1 ≤ mx
  | 0, _, _ => Nat.zero_le _
  | fuel + 1, mx, s => by
    unfold rkIntervalAux
    dsimp only []
    split
    next h => exact h
    next _ => exact rkIntervalAux_le fuel mx _

/-- `rk_interval(max)` returns a value in `[0, max]`. -/
theorem rkInterval_le (mx : ℕ) (s : MTState) : (rkInterval mx s).1 ≤ mx := by
  unfold rkInterval
  split
  · exact Nat.zero_le _
  · exact rkIntervalAux_le 64 mx s

/-- Writing `x` into position `k` while pulling the old entry `xs[k]` to
the front permutes `x :: xs`. -/
theorem cons_set_perm : ∀ (xs : List ℕ) (k : ℕ), k < xs.length → ∀ x : ℕ,
    List.Perm (xs.getD k 0 :: xs.set k x) (x :: xs)
  | [], k, hk, _ => absurd hk (by simp)
  | y :: ys, 0, _, x => by
    simp only [List.getD_cons_zero, List.set_cons_zero]
    exact List.Perm.swap x y ys
  | y :: ys, k + 1, hk, x => by
    simp only [List.getD_cons_succ, List.set_cons_succ]
    refine List.Perm.trans (List.Perm.swap y (ys.getD k 0) (ys.set k x)) ?_
    refine List.Perm.trans ((cons_set_perm ys k (by simpa using hk) x).cons y) ?_
    exact List.Perm.swap x y ys

/-- Swapping the entries at two valid positions permutes the list. -/
theorem set_set_perm : ∀ (l : List ℕ) (i j : ℕ), i < l.length → j < l.length →
    List.Perm ((l.set i (l.getD j 0)).set j (l.getD i 0)) l
  | [], _, _, hi, _ => absurd hi (by simp)
  | x :: xs, 0, 0, _, _ => by
    simp only [List.getD_cons_zero, List.set_cons_zero]
    exact List.Perm.refl _
  | x :: xs, 0, j + 1, _, hj => by
    simp only [List.getD_cons_zero, List.getD_cons_succ, List.set_cons_zero,
      List.set_cons_succ]
    exact cons_set_perm xs j (by simpa using hj) x
  | x :: xs, i + 1, 0, hi, _ => by
    simp only [List.getD_cons_zero, List.getD_cons_succ, List.set_cons_zero,
      List.set_cons_succ]
    exact cons_set_perm xs i (by simpa using hi) x
  | x :: xs, i + 1, j + 1, hi, hj => by
    simp only [List.getD_cons_succ, List.set_cons_succ]
    exact (set_set_perm xs i j (by simpa using hi) (by simpa using hj)).cons x

/-- The Fisher-Yates descent permutes its array (fuel below the length
keeps every swap in bounds). -/
theorem npShuffleAux_perm : ∀ (fuel : ℕ) (arr : List ℕ) (s : MTState),
    fuel < arr.length → List.Perm (npShuffleAux fuel arr s).1 arr
  | 0, arr, _, _ => by
    unfold npShuffleAux
    exact List.Perm.refl arr
  | fuel + 1, arr, s, h => by
    unfold npShuffleAux
    have hj : (rkInterval (fuel + 1) s).1 < arr.length :=
      lt_of_le_of_lt (rkInterval_le _ _) h
    have hperm := set_set_perm arr (fuel + 1) (rkInterval (fuel + 1) s).1 h hj
    refine (npShuffleAux_perm fuel _ _ ?_).trans hperm
    simpa using Nat.lt_of_succ_lt h

/-- `RandomState(seed).permutation(n)` is a permutation of `range n`. -/
theorem npPermutation_perm (seed n : ℕ) :
    List.Perm (npPermutation seed n) (List.range n) := by
  unfold npPermutation
  cases n with
  | zero =>
      unfold npShuffleAux
      exact List.Perm.refl _
  | succ k => exact npShuffleAux_perm k _ _ (by simp)

/-- The drawn permutation has no duplicate entries. -/
theorem npPermutation_nodup (seed n : ℕ) : (npPermutation seed n).Nodup :=
  ((npPermutation_perm seed n).nodup_iff).mpr (List.nodup_range n)

/-- Every entry of the drawn permutation is a valid row position. -/
theorem npPermutation_mem_lt (seed n : ℕ) :
    ∀ k ∈ npPermutation seed n, k < n := fun _ hk =>
  List.mem_range.mp ((npPermutation_perm seed n).mem_iff.mp hk)

/-- The sampled row positions are pairwise distinct. -/
theorem pdSampleIdx_nodup (seed : ℕ) (frac : ℚ) (n : ℕ) :
    (pdSampleIdx seed frac n).Nodup :=
  (npPermutation_nodup seed n).sublist (List.take_sublist _ _)

/-- The sampled row positions are all in range. -/
theorem pdSampleIdx_mem_lt (seed : ℕ) (frac : ℚ) (n : ℕ) :
    ∀ k ∈ pdSampleIdx seed frac n, k < n := fun k hk =>
  npPermutation_mem_lt seed n k ((List.take_sublist _ _).subset hk)

/-- Sampling a duplicate-free table yields a duplicate-free sample: the
drawn positions are distinct and positions of a duplicate-free list carry
distinct rows. -/
theorem pdSample_nodup {β : Type} (seed : ℕ) (frac : ℚ) (t : List β)
    (h : t.Nodup) : (pdSample seed frac t).Nodup := by
  refine List.Nodup.filterMap ?_ (pdSampleIdx_nodup seed frac t.length)
  intro i i' b hb hb'
  rw [Option.mem_def] at hb hb'
  exact List.getElem?_inj (List.getElem?_eq_some_iff.mp hb).1 h (hb.trans hb'.symm)

/-- With seed 42 on a 10-row table, `sample(frac=0.3)` draws the row
positions 8, 1 and 5, in that order (3 = round(0.3 * 10) entries of the
seed-42 Mersenne-Twister permutation of `range 10`). -/
theorem pdSampleIdx_42_10 : pdSampleIdx 42 (3 / 10) 10 = [8, 1, 5] := by
  have hc : Int.toNat (round ((3 / 10 : ℚ) * (10 : ℕ))) = 3 := by
    norm_num [round_eq]
    decide
  unfold pdSampleIdx
  rw [hc]
  decide

/-- C5: the claim says the Cleaning Stage never reorders surviving rows.
On the concrete ten-row table `tcsv10` (all rows pass the price filter)
the seed-42 subsample of line 17 emits rows 8, 1 and 5 in draw order, so
the cleaned table is not a sublist of the projected input: the relative
order of survivors is NOT preserved. -/
theorem c5_cleaning_reorders :
    pdSampleIdx 42 (3 / 10) ((tcsv10.filter priceOk).length) = [8, 1, 5] ∧
    ¬ (cleaningStage 42 (3 / 10) tcsv10).Sublist (tcsv10.map CsvRow.toRawRow) := by
  have hlen : ((tcsv10.filter priceOk).map CsvRow.toRawRow).length = 10 := by decide
  have hlen2 : (tcsv10.filter priceOk).length = 10 := by decide
  constructor
  · rw [hlen2]
    exact pdSampleIdx_42_10
  · unfold cleaningStage pdSample
    rw [hlen, pdSampleIdx_42_10]
    decide

/-- C5 (amended): the price filter of line 15 and the Outlier Filter only
drop rows, preserving relative order, and the imputation, encoding and
feature-engineering stages preserve row count and map row `i` to row `i`;
but the subsample of line 17 (part of the Cleaning Stage) emits its
drawn rows in the generator's draw order, so Cleaning can reorder
survivors.  It still never duplicates one: the drawn positions are
pairwise distinct, so a duplicate-free table stays duplicate-free. -/
theorem c5_row_alignment (tc : List CsvRow) (seed : ℕ) (frac : ℚ)
    (fy fo : List RawRow → ℕ → ℚ) (tr : List RawRow) (ti : List ImpRow)
    (te : List EncRow) (cy : ℚ) (i : ℕ) :
    (tc.filter priceOk).Sublist tc ∧
    (pdSampleIdx seed frac (tc.filter priceOk).length).Nodup ∧
    (((tc.filter priceOk).map CsvRow.toRawRow).Nodup →
      (cleaningStage seed frac tc).Nodup) ∧
    (outlierStage ti).Sublist ti ∧
    (imputeStage fy fo tr).length = tr.length ∧
    (imputeStage fy fo tr)[i]? = tr[i]?.map (imputeRow fy fo tr i) ∧
    (encodeStage ti).length = ti.length ∧
    (encodeStage ti)[i]? = ti[i]?.map (encodeRowIn ti) ∧
    (engineerStage cy te).length = te.length ∧
    (engineerStage cy te)[i]? = te[i]?.map (engineerRow cy) := by
  refine ⟨List.filter_sublist tc, pdSampleIdx_nodup seed frac _, ?_,
    outlierStage_sublist ti, ?_, ?_, ?_, ?_, ?_, ?_⟩
  · intro hnd
    have := pdSample_nodup seed frac ((tc.filter priceOk).map CsvRow.toRawRow) hnd
    simpa [cleaningStage] using this
  · simp [imputeStage]
  · simp [imputeStage]
  · simp [encodeStage]
  · simp [encodeStage]
  · simp [engineerStage]
  · simp [engineerStage]

/-- Witness for the amended row-alignment theorem: concrete distinct-row
table, and the seed-42 cleaned table is duplicate-free. -/
theorem c5_row_alignment_witness :
    (cleaningStage 42 (3 / 10) tcsv10).Nodup :=
  (c5_row_alignment tcsv10 42 (3 / 10) (fun _ _ => 0) (fun _ _ => 0) [] [] [] 0
    0).2.2.1 (by decide)

/-- Mean of the odometer column of `t10`. -/
theorem mean_t10 : mean (t10.map ImpRow.odometer) = 1 := by
  norm_num [mean, t10, r10]

/-- Population variance of the odometer column of `t10`. -/
theorem pvariance_t10 : pvariance (t10.map ImpRow.odometer) = 9 := by
  unfold pvariance
  rw [mean_t10]
  simp [t10, r10]
  norm_num

/-- The squared standardized score of the last row of `t10` is exactly 9,
that is, its z-score has magnitude exactly 3. -/
theorem zsq_t10 : zscoreSq (t10.map ImpRow.odometer) r10.odometer = some 9 := by
  unfold zscoreSq
  rw [pvariance_t10, mean_t10, if_neg (by norm_num)]
  simp [r10]
  norm_num

/-- C1: the claim says a row whose standardized odometer score has
magnitude exactly 3 is retained by the outlier filter.  In the concrete
table `t10` the last row has z-score exactly 3 (squared score 9), yet
lines 25-26 retain only `abs(z) < 3`, so the row is dropped: the claim is
false on the code. -/
theorem c1_boundary_row_dropped :
    zscoreSq (t10.map ImpRow.odometer) r10.odometer = some 9 ∧
    r10 ∈ t10 ∧ r10 ∉ outlierStage t10 := by
  refine ⟨zsq_t10, by simp [t10], ?_⟩
  rw [outlierStage_eq_filter]
  intro hmem
  have hp := List.of_mem_filter hmem
  rw [zsq_t10] at hp
  simp [zKeep] at hp

/-- C1 (amended): a row whose standardized odometer score has magnitude
exactly 3 (more generally, at least 3) is dropped by the outlier filter;
a row with magnitude strictly below 3 is retained.  The retention test of
line 26 is `abs(z) < 3`, strict on both sides of the boundary. -/
theorem c1_outlier_boundary_strict (t : List ImpRow) (r : ImpRow)
    (hr : r ∈ t) :
    (∀ q : ℚ, zscoreSq (t.map ImpRow.odometer) r.odometer = some q →
      9 ≤ q → r ∉ outlierStage t) ∧
    (∀ q : ℚ, zscoreSq (t.map ImpRow.odometer) r.odometer = some q →
      q < 9 → r ∈ outlierStage t) := by
  constructor
  · intro q hq h9 hmem
    rw [outlierStage_eq_filter] at hmem
    have hp := List.of_mem_filter hmem
    rw [hq] at hp
    simp [zKeep] at hp
    exact absurd hp (not_lt.mpr h9)
  · intro q hq hlt
    rw [outlierStage_eq_filter]
    refine List.mem_filter.mpr ⟨hr, ?_⟩
    rw [hq]
    simpa [zKeep] using hlt

/-- Witness for the amended C1 boundary theorem at the concrete table. -/
theorem c1_outlier_boundary_strict_witness : r10 ∉ outlierStage t10 :=
  (c1_outlier_boundary_strict t10 r10 (by simp [t10])).1 9 zsq_t10 le_rfl

/-- C2: the claim states MSE = 7.67 (rounded) for `y_test = [10, 20, 30]`,
`y_pred = [12, 18, 33]`.  The mean squared error is `(4 + 4 + 9)/3 = 17/3`,
which rounds to 5.67, not 7.67: the stated value is wrong. -/
theorem c2_mse_value_refuted :
    roundTo2 (mse [10, 20, 30] [12, 18, 33]) = 567/100 ∧
    roundTo2 (mse [10, 20, 30] [12, 18, 33]) ≠ 767/100 := by
  have h : mse [10, 20, 30] [12, 18, 33] = 17/3 := by
    simp [mse]
    norm_num
  rw [h]
  unfold roundTo2
  norm_num [round_eq]

/-- C2 (amended): with `y_test = [10, 20, 30]`, `y_pred = [12, 18, 33]`,
MAE = 7/3 (2.33 rounded), MSE = 17/3 (5.67 rounded, not 7.67), and R² is
computed against the mean of `y_test` (which is 20), giving
`1 - 17/200 = 183/200`. -/
theorem c2_evaluator_values :
    mae [10, 20, 30] [12, 18, 33] = 7/3 ∧
    roundTo2 (mae [10, 20, 30] [12, 18, 33]) = 233/100 ∧
    mse [10, 20, 30] [12, 18, 33] = 17/3 ∧
    roundTo2 (mse [10, 20, 30] [12, 18, 33]) = 567/100 ∧
    mean [10, 20, 30] = 20 ∧
    r2 [10, 20, 30] [12, 18, 33] = 183/200 := by
  have hmae : mae [10, 20, 30] [12, 18, 33] = 7/3 := by
    simp [mae]
    norm_num
  have hmse : mse [10, 20, 30] [12, 18, 33] = 17/3 := by
    simp [mse]
    norm_num
  have hmean : mean [10, 20, 30] = 20 := by
    simp [mean]
    norm_num
  refine ⟨hmae, ?_, hmse, ?_, hmean, ?_⟩
  · rw [hmae]
    unfold roundTo2
    norm_num [round_eq]
  · rw [hmse]
    unfold roundTo2
    norm_num [round_eq]
  · unfold r2
    rw [hmean]
    simp
    norm_num

/-- Population variance of the constant odometer column is zero. -/
theorem pvariance_tconst : pvariance (tconst.map ImpRow.odometer) = 0 := by
  have hm : mean (tconst.map ImpRow.odometer) = 5 := by
    simp [mean, tconst]
    norm_num
  unfold pvariance
  rw [hm]
  simp [tconst]

/-- C3: the claim (and the spec) say a zero-variance odometer column leads
to no rows being removed.  The code instead divides by a zero standard
deviation, producing NaN scores; `NaN.abs() < 3` is false, so every row is
removed.  On the concrete constant-odometer table `tconst` the output is
empty, not equal to the input. -/
theorem c3_zero_variance_drops_all_rows :
    pvariance (tconst.map ImpRow.odometer) = 0 ∧
    outlierStage tconst = [] ∧ tconst ≠ [] := by
  refine ⟨pvariance_tconst, ?_, by simp [tconst]⟩
  rw [outlierStage_eq_filter, List.filter_eq_nil_iff]
  intro r hr
  simp [zscoreSq, pvariance_tconst, zKeep]

/-- C10: lines 25-27 add the temporary `odometer_zscore` column and drop
it again after filtering, so the column list after the stage equals the
column list before it whenever `odometer_zscore` is not already a column;
moreover every surviving row is one of the input rows unchanged (the
standardized score is not part of any downstream row). -/
theorem c10_zscore_column_transient (cols : List String)
    (h : "odometer_zscore" ∉ cols) :
    outlierStageCols cols = cols ∧
    ∀ t : List ImpRow, (outlierStage t).Sublist t := by
  refine ⟨?_, outlierStage_sublist⟩
  unfold outlierStageCols addColName dropColName
  rw [if_neg h]
  have h1 : (["odometer_zscore"].filter fun x => x ≠ "odometer_zscore") = [] := by
    simp
  rw [List.filter_append, h1, List.append_nil, List.filter_eq_self]
  intro a ha
  simp only [ne_eq, decide_eq_true_eq]
  intro heq
  exact h (heq ▸ ha)

/-- Witness for the transient z-score column theorem at the nine projected
columns of line 16. -/
theorem c10_zscore_column_transient_witness :
    outlierStageCols nineCols = nineCols ∧
    ∀ t : List ImpRow, (outlierStage t).Sublist t :=
  c10_zscore_column_transient nineCols (by decide)

/-- C7: `LabelEncoder` fits the `numpy.unique` classes, so the code of a
value is its index in the sorted distinct-value list.  The mapping sends
the observed distinct values bijectively onto `{0 .. n-1}` (n the number
of distinct values): codes are in range, injective on observed values and
attain every index; and it depends only on the distinct-value set, hence
is deterministic across runs over the same set. -/
theorem c7_encoder_bijection {α : Type} [LinearOrder α] [DecidableEq α]
    (col : List α) :
    (npUnique col).length = col.toFinset.card ∧
    (∀ v ∈ col, labelCode col v < (npUnique col).length) ∧
    Set.InjOn (labelCode col) {v | v ∈ col} ∧
    (∀ i, i < (npUnique col).length → ∃ v ∈ col, labelCode col v = i) ∧
    (∀ col2 : List α, col.toFinset = col2.toFinset →
      npUnique col = npUnique col2 ∧ ∀ v, labelCode col v = labelCode col2 v) := by
  have hmem : ∀ v ∈ col, v ∈ npUnique col := fun v hv =>
    (Finset.mem_sort _).mpr (List.mem_toFinset.mpr hv)
  refine ⟨Finset.length_sort _, ?_, ?_, ?_, ?_⟩
  · intro v hv
    exact List.indexOf_lt_length.mpr (hmem v hv)
  · intro a ha b hb heq
    exact (List.indexOf_inj (hmem a ha) (hmem b hb)).mp heq
  · intro i hi
    refine ⟨(npUnique col).get ⟨i, hi⟩, ?_, ?_⟩
    · exact List.mem_toFinset.mp ((Finset.mem_sort _).mp (List.get_mem _ _ _))
    · exact List.get_indexOf (Finset.sort_nodup _ _) ⟨i, hi⟩
  · intro col2 h
    constructor
    · unfold npUnique
      rw [h]
    · intro v
      unfold labelCode npUnique
      rw [h]

/-- Witness for the encoder theorem: two columns with the same
distinct-value set get the same class list and the same codes. -/
theorem c7_encoder_bijection_witness :
    npUnique ["b", "a", "b"] = npUnique ["a", "b"] ∧
    labelCode ["b", "a", "b"] "a" = labelCode ["a", "b"] "a" :=
  ⟨((c7_encoder_bijection ["b", "a", "b"]).2.2.2.2 ["a", "b"] (by decide)).1,
   ((c7_encoder_bijection ["b", "a", "b"]).2.2.2.2 ["a", "b"] (by decide)).2 "a"⟩

/-- C9: the feature engineer of lines 36-41 appends exactly the three
derived columns and leaves every pre-existing column of every row
unchanged: projecting the engineered rows back to their encoded part
recovers the input table, the row count is unchanged, and the three new
columns carry exactly the documented derivations. -/
theorem c9_engineer_appends_only (cy : ℚ) (te : List EncRow) :
    (engineerStage cy te).map FeatRow.toEncRow = te ∧
    (engineerStage cy te).length = te.length ∧
    ∀ r ∈ engineerStage cy te,
      r.car_age = cy - r.year ∧
      r.price_per_km = r.price / (r.odometer + 1) ∧
      r.odometer_fuel = r.odometer * (r.fuel : ℚ) := by
  refine ⟨?_, by simp [engineerStage], ?_⟩
  · unfold engineerStage
    rw [List.map_map]
    have h : FeatRow.toEncRow ∘ engineerRow cy = id := rfl
    rw [h, List.map_id]
  · intro r hr
    obtain ⟨s, _, rfl⟩ := List.mem_map.mp hr
    exact ⟨rfl, rfl, rfl⟩

/-- Witness for the feature-engineer theorem on a concrete one-row
table. -/
theorem c9_engineer_appends_only_witness :
    (engineerRow 2025 ⟨1000, 2000, 1, 2, 50, 0, 1, 2, 3⟩).car_age = 2025 - 2000 ∧
    (engineerRow 2025 ⟨1000, 2000, 1, 2, 50, 0, 1, 2, 3⟩).price_per_km
      = 1000 / (50 + 1) ∧
    (engineerRow 2025 ⟨1000, 2000, 1, 2, 50, 0, 1, 2, 3⟩).odometer_fuel
      = 50 * (2 : ℚ) := by
  have h := (c9_engineer_appends_only 2025
      [⟨1000, 2000, 1, 2, 50, 0, 1, 2, 3⟩]).2.2
    (engineerRow 2025 ⟨1000, 2000, 1, 2, 50, 0, 1, 2, 3⟩)
    (List.mem_singleton_self _)
  exact ⟨h.1, h.2.1, h.2.2⟩

/-- C6: on an importance table whose scores all lie at or below 0.01, the
selection of line 51 is empty and line 52 leaves a zero-column matrix;
the script has no check of its own, so the run reaches `fit`, which fails
with sklearn's generic ValueError — it is NOT the explicit DataError the
claim describes (`isDataError` is false). -/
theorem c6_no_dataerror_raised :
    selectedFeatures impLow = [] ∧
    isDataError (selectAndFit impLow Xcols) = false ∧
    selectAndFit impLow Xcols = .error (.valueError
      "Found array with 0 feature(s) while a minimum of 1 is required.") := by
  have hsel : selectedFeatures impLow = [] := by
    norm_num [selectedFeatures, impLow, List.filter_cons]
  refine ⟨hsel, ?_, ?_⟩
  · unfold selectAndFit
    rw [hsel]
    rfl
  · unfold selectAndFit
    rw [hsel]
    rfl

/-- C6 (amended): whenever every mutual-information score is at or below
the 0.01 threshold, `selected_features` is empty, and the pipeline
proceeds to the `fit` call with a zero-column matrix, halting there with
the library's ValueError; no DataError is raised before training because
the script defines none. -/
theorem c6_all_low_reaches_fit (imp : List (String × ℚ))
    (X : List (String × List ℚ)) (h : ∀ p ∈ imp, p.2 ≤ 1 / 100) :
    selectedFeatures imp = [] ∧
    selectAndFit imp X = .error (.valueError
      "Found array with 0 feature(s) while a minimum of 1 is required.") ∧
    isDataError (selectAndFit imp X) = false := by
  have hf : imp.filter (fun p => decide ((1 / 100 : ℚ) < p.2)) = [] :=
    List.filter_eq_nil_iff.mpr fun p hp => by
      simpa using not_lt.mpr (h p hp)
  have hsel : selectedFeatures imp = [] := by
    unfold selectedFeatures
    rw [hf]
    rfl
  refine ⟨hsel, ?_, ?_⟩
  · unfold selectAndFit
    rw [hsel]
    rfl
  · unfold selectAndFit
    rw [hsel]
    rfl

/-- Witness for the degenerate-selection theorem at the concrete
all-low-scores importance table. -/
theorem c6_all_low_reaches_fit_witness :
    selectedFeatures impLow = [] ∧
    selectAndFit impLow Xcols = .error (.valueError
      "Found array with 0 feature(s) while a minimum of 1 is required.") ∧
    isDataError (selectAndFit impLow Xcols) = false :=
  c6_all_low_reaches_fit impLow Xcols (by
    intro p hp
    simp only [impLow, List.mem_cons, List.not_mem_nil, or_false] at hp
    rcases hp with rfl | rfl | rfl <;> norm_num)

/-- The trees list of a fitted ensemble has exactly `nEstimators`
entries: every boosting transition appends exactly one tree. -/
theorem gbrFit_trees_length (f : List (List ℚ) → List ℚ → RTree)
    (X : List (List ℚ)) (y : List ℚ) (lr : ℚ) (T : ℕ) :
    (gbrFit f X y T lr).trees.length = T := by
  have key : ∀ (n : ℕ) (m : GBRModel),
      (((List.range n).foldl (fun m _ => gbrStep f X y m) m).trees.length)
        = m.trees.length + n := by
    intro n
    induction n with
    | zero => intro m; simp
    | succ k ih =>
        intro m
        rw [List.range_succ, List.foldl_append, List.foldl_cons, List.foldl_nil]
        have hstep : ∀ m' : GBRModel,
            (gbrStep f X y m').trees.length = m'.trees.length + 1 := by
          intro m'
          unfold gbrStep
          simp
        rw [hstep, ih m]
        omega
  unfold gbrFit
  rw [key T ⟨mean y, lr, []⟩]
  simp

/-- C8: `staged_predict` yields exactly T prediction vectors for a
T-tree ensemble (default T = 100 on line 58), one full vector per prefix
of 1..T trees, whatever trees the CART fitter returned; no monotonicity
of the staged error is asserted. -/
theorem c8_staged_predictions (f : List (List ℚ) → List ℚ → RTree)
    (X : List (List ℚ)) (y : List ℚ) (T : ℕ) (lr : ℚ)
    (Xtest : List (List ℚ)) :
    (stagedPredictSeq (gbrFit f X y T lr) Xtest).length = T ∧
    (∀ p ∈ stagedPredictSeq (gbrFit f X y T lr) Xtest,
      p.length = Xtest.length) ∧
    (∀ t, t < T → (stagedPredictSeq (gbrFit f X y T lr) Xtest)[t]? =
      some (Xtest.map ((gbrFit f X y T lr).predictWith (t + 1)))) := by
  refine ⟨?_, ?_, ?_⟩
  · simp [stagedPredictSeq, gbrFit_trees_length]
  · intro p hp
    obtain ⟨t, _, rfl⟩ := List.mem_map.mp hp
    simp
  · intro t ht
    unfold stagedPredictSeq
    rw [List.getElem?_map, List.getElem?_range
      (by rw [gbrFit_trees_length]; exact ht)]
    rfl

/-- Witness for the staged-prediction theorem at the default T = 100 with
a concrete fitter and one test row. -/
theorem c8_staged_predictions_witness :
    (stagedPredictSeq
      (gbrFit (fun _ _ => RTree.leaf 0) [[1]] [5] 100 (1 / 10)) [[1]]).length
        = 100 ∧
    (stagedPredictSeq
      (gbrFit (fun _ _ => RTree.leaf 0) [[1]] [5] 100 (1 / 10)) [[1]])[99]? =
      some ([[1]].map
        ((gbrFit (fun _ _ => RTree.leaf 0) [[1]] [5] 100 (1 / 10)).predictWith
          100)) :=
  ⟨(c8_staged_predictions (fun _ _ => RTree.leaf 0) [[1]] [5] 100 (1 / 10)
      [[1]]).1,
   (c8_staged_predictions (fun _ _ => RTree.leaf 0) [[1]] [5] 100 (1 / 10)
      [[1]]).2.2 99 (by norm_num)⟩

/-- C4: line 46 calls `mutual_info_regression` with no `random_state`
while every other stochastic stage passes `random_state=42`, so the
importance scores depend on the global generator state and differ between
two runs.  Downstream, the strict 0.01 threshold of line 51 turns a
sub-0.01-sized score difference — the two runs' outputs for the same
feature — into different selected-feature sets, hence different training
inputs and predictions. -/
theorem c4_selection_sensitive_to_noise :
    selectedFeatures [("car_age", 11 / 1000)] = ["car_age"] ∧
    selectedFeatures [("car_age", 9 / 1000)] = [] ∧
    selectedFeatures [("car_age", 11 / 1000)] ≠
      selectedFeatures [("car_age", 9 / 1000)] := by
  have h1 : selectedFeatures [("car_age", 11 / 1000)] = ["car_age"] := by
    norm_num [selectedFeatures, List.filter_cons]
  have h2 : selectedFeatures [("car_age", 9 / 1000)] = [] := by
    norm_num [selectedFeatures, List.filter_cons]
  refine ⟨h1, h2, ?_⟩
  rw [h1, h2]
  simp

end GradBoost
